import Mathlib

/-!
A verification development for the goal-state synchronization core of the
`vscode-lean4` infoview.  The definitions below are shallow embeddings of the
TypeScript source:

* `JsTaggedText` / `interactiveTaggedText` embed the recursive renderer
  `InteractiveTaggedText` for tagged-text trees;
* `lazyCalls` embeds the `lazy` memoization helper from `messages.tsx`;
* `publishDiagnostics` embeds the `textDocument/publishDiagnostics` handler of
  `WithLspDiagnosticsContext`;
* `updateDiags` embeds the raw-versus-interactive diagnostics preference of
  `useMessagesForFile` / `AllMessages`;
* `ThrottleState` / `throttleStep` embed the `useDelayedThrottled` scheduler
  from `info.tsx` with an explicit virtual clock;
* `InfoState` / `infoStep` embed the update state machine of `InfoAux` and its
  `triggerUpdate` callback from `info.tsx`.
-/

/-- A JavaScript-level `TaggedText` value as received by `InteractiveTaggedText`:
an object that may carry a `text` field, an `append` field (an ordered list of
subtrees) and a `tag` field (a pair of tag payload and subtree).  The renderer
tests the fields in the order `text`, `append`, `tag`; a value with none of the
three is malformed. -/
inductive JsTaggedText (Tag : Type) where
  | mk : Option String → Option (List (JsTaggedText Tag)) → Option (Tag × JsTaggedText Tag) →
      JsTaggedText Tag

/-- The well-formed `Text` shape. -/
def JsTaggedText.text {Tag : Type} (s : String) : JsTaggedText Tag :=
  .mk (some s) none none

/-- The well-formed `Append` shape. -/
def JsTaggedText.append {Tag : Type} (xs : List (JsTaggedText Tag)) : JsTaggedText Tag :=
  .mk none (some xs) none

/-- The well-formed `Tagged` shape. -/
def JsTaggedText.tagged {Tag : Type} (t : Tag) (x : JsTaggedText Tag) : JsTaggedText Tag :=
  .mk none none (some (t, x))

mutual
/-- Embedding of `InteractiveTaggedText` (the core tagged-text render loop):
`text` nodes emit their string, `append` nodes render their children
left-to-right, `tag` nodes are delegated to the handler `innerTagUi` with the
tag payload and the subtree, and a node with none of the three fields raises a
fatal error.  Rendering produces the emitted text; the handler may itself fail
or recursively render. -/
def interactiveTaggedText {Tag : Type}
    (innerTagUi : Tag → JsTaggedText Tag → Except String String) :
    JsTaggedText Tag → Except String String
  | .mk (some s) _ _ => .ok s
  | .mk none (some xs) _ => interactiveTaggedTextList innerTagUi xs
  | .mk none none (some (t, sub)) => innerTagUi t sub
  | .mk none none none => .error "malformed TaggedText"

/-- Renders a list of children of an `append` node in order, concatenating the
results. -/
def interactiveTaggedTextList {Tag : Type}
    (innerTagUi : Tag → JsTaggedText Tag → Except String String) :
    List (JsTaggedText Tag) → Except String String
  | [] => .ok ""
  | x :: xs => do
      let a ← interactiveTaggedText innerTagUi x
      let b ← interactiveTaggedTextList innerTagUi xs
      pure (a ++ b)
end

/-- A JavaScript runtime value, including the falsy values `undefined`, `null`,
`false`, `0` and the empty string, used to state the `lazy` helper's contract
faithfully to JavaScript truthiness. -/
inductive JsVal where
  | undef
  | jsNull
  | jsBool (b : Bool)
  | jsNum (n : Int)
  | jsStr (s : String)
  deriving DecidableEq

/-- Embedding of one call to the closure returned by `lazy(f)` in
`messages.tsx`.  The captured variable `state` is `undefined` (here `none`) or
the wrapper object `\x7bt: ...\x7d` (here `some t`); the guard `if (!state)` tests the
wrapper object, which is always truthy once assigned, not the cached value
itself.  Returns the call's result, the number of times `f` was invoked by this
call, and the new state. -/
def lazyStep (f : Unit → JsVal) : Option JsVal → JsVal × Nat × Option JsVal
  | none => (f (), 1, some (f ()))
  | some t => (t, 0, some t)

/-- Runs `n` successive calls against the closure returned by `lazy(f)`,
starting from state `state`; returns the list of results in call order, the
total number of invocations of `f`, and the final state. -/
def lazyCalls (f : Unit → JsVal) (state : Option JsVal) : Nat → List JsVal × Nat × Option JsVal
  | 0 => ([], 0, state)
  | n + 1 =>
      let one := lazyStep f state
      let rest := lazyCalls f one.2.2 n
      (one.1 :: rest.1, one.2.1 + rest.2.1, rest.2.2)

/-- A raw LSP diagnostic as stored by the diagnostics map (range modelled as a
pair of positions, each a line/character pair). -/
structure LspDiagnostic where
  range : (Nat × Nat) × (Nat × Nat)
  severity : Option Nat
  message : String
  deriving DecidableEq

/-- An interactive diagnostic: same data, but the message is a tagged-text
tree. -/
structure InteractiveDiagModel where
  range : (Nat × Nat) × (Nat × Nat)
  severity : Option Nat
  message : JsTaggedText Unit

/-- Embedding of the conversion `\x7b ...(d as LeanDiagnostic), message: \x7btext: d.message\x7d \x7d`
that lifts a raw diagnostic into the interactive shape. -/
def diagToInteractive (d : LspDiagnostic) : InteractiveDiagModel :=
  { range := d.range, severity := d.severity, message := .mk (some d.message) none none }

/-- The diagnostics map of `WithLspDiagnosticsContext`, keyed by document URI. -/
def DiagnosticsMap : Type := String → Option (List LspDiagnostic)

/-- Embedding of the `textDocument/publishDiagnostics` handler:
`diags => new Map(diags).set(params.uri, params.diagnostics)` — the entry for
the published URI is replaced wholesale, every other entry is copied. -/
def publishDiagnostics (m : DiagnosticsMap) (uri : String) (ds : List LspDiagnostic) :
    DiagnosticsMap :=
  fun u => if u = uri then some ds else m u

/-- Embedding of the diagnostics choice made by `useMessagesForFile` (and by the
lazy thunk in `AllMessages`): first take the raw diagnostics converted to the
interactive shape; when the server supports widgets, fetch interactive
diagnostics and use them only when the returned list is non-empty; a failed
fetch (any error code) keeps the raw list. -/
def updateDiags (hasWidgetsV1 : Bool) (lspDiags : List LspDiagnostic)
    (fetched : Except Int (List InteractiveDiagModel)) : List InteractiveDiagModel :=
  let base := lspDiags.map diagToInteractive
  if hasWidgetsV1 then
    match fetched with
    | .ok ds => if ds.length > 0 then ds else base
    | .error _ => base
  else base

/-- State of the `useDelayedThrottled` scheduler, with an explicit virtual
clock.  `pendingFireAt` models `waiting.current` being `true` together with the
instant at which the pending `setTimeout` fires (`waiting` is set exactly when a
timeout is scheduled); `current` models `callbackRef.current`, rebound on every
render; `fires` logs each invocation of the callback as the pair of fire time
and the action invoked, newest first; `running` counts invoked actions whose
asynchronous execution has not yet finished. -/
structure ThrottleState (A : Type) where
  pendingFireAt : Option Nat
  current : A
  fires : List (Nat × A)
  running : Nat

/-- Environment events driving the scheduler: `bind a` re-assigns
`callbackRef.current` (a render), `call t` is an invocation of the returned
trigger at time `t`, `fire t` is the pending timeout firing at time `t`, and
`finish` is the completion of one running action. -/
inductive ThrottleEvent (A : Type) where
  | bind (a : A)
  | call (t : Nat)
  | fire (t : Nat)
  | finish

/-- One step of the `useDelayedThrottled` scheduler.  A `call` while `waiting`
is a no-op; otherwise it schedules a fire `ms` later.  A `fire` resets `waiting`
before invoking the latest bound action, so calls made while the action is
still running start a fresh wait. -/
def throttleStep {A : Type} (ms : Nat) (s : ThrottleState A) :
    ThrottleEvent A → ThrottleState A
  | .bind a => { s with current := a }
  | .call t =>
      match s.pendingFireAt with
      | some _ => s
      | none => { s with pendingFireAt := some (t + ms) }
  | .fire t =>
      if s.pendingFireAt = some t then
        { s with pendingFireAt := none, fires := (t, s.current) :: s.fires,
                 running := s.running + 1 }
      else s
  | .finish => { s with running := s.running - 1 }

/-- Runs the scheduler over a list of events. -/
def throttleRun {A : Type} (ms : Nat) (s : ThrottleState A) (es : List (ThrottleEvent A)) :
    ThrottleState A :=
  es.foldl (throttleStep ms) s

/-- The time of a timed scheduler event. -/
def ThrottleEvent.time {A : Type} : ThrottleEvent A → Option Nat
  | .call t => some t
  | .fire t => some t
  | _ => none

/-- Well-formed schedules: every timed event occurs no earlier than the bound
`b`, and timed events occur in nondecreasing time order. -/
def TimedFrom {A : Type} (b : Nat) : List (ThrottleEvent A) → Prop
  | [] => True
  | e :: es =>
      match e.time with
      | none => TimedFrom b es
      | some t => b ≤ t ∧ TimedFrom t es

/-- Invocation log entries are separated by at least `ms`: the log is kept
newest first, so each entry fires at least `ms` after the next one. -/
def FiresSep {A : Type} (ms : Nat) : List (Nat × A) → Prop
  | x :: y :: l => y.1 + ms ≤ x.1 ∧ FiresSep ms (y :: l)
  | _ => True

/-- The newest logged invocation (if any) happened no later than `b`. -/
def HeadAtMost {A : Type} : List (Nat × A) → Nat → Prop
  | [], _ => True
  | x :: _, b => x.1 ≤ b

/-- The newest logged invocation (if any) happened at least `ms` before `p`. -/
def HeadSepFrom {A : Type} (ms : Nat) : List (Nat × A) → Nat → Prop
  | [], _ => True
  | x :: _, p => x.1 + ms ≤ p

/-- Inductive invariant of the scheduler at time bound `b`: the newest logged
invocation is not in the future, a pending fire is scheduled at least `ms`
after the newest invocation, and logged invocations are `ms`-separated. -/
def ThrottleInv {A : Type} (ms b : Nat) (s : ThrottleState A) : Prop :=
  HeadAtMost s.fires b ∧
  (∀ p, s.pendingFireAt = some p → HeadSepFrom ms s.fires p) ∧
  FiresSep ms s.fires

/-- The `InfoStatus` type of `info.tsx`. -/
inductive InfoStatus where
  | loading
  | updating
  | error
  | ready
  deriving DecidableEq

/-- A JavaScript exception value as classified by the `catch` block of
`triggerUpdate`: a string, an RPC error (numeric code and message), an `Error`
object (its `toString()` rendering), a value that is `undefined` or serializes
to an empty JSON object, or any other value (its JSON serialization). -/
inductive JsError where
  | str (s : String)
  | rpc (code : Int) (message : String)
  | jsErr (message : String)
  | empty
  | other (json : String)
  deriving DecidableEq

/-- The well-known `ContentModified` LSP error code tested by `triggerUpdate`. -/
def contentModifiedCode : Int := -32801

/-- An in-flight goal/term-goal/widget request batch, recorded with the
position and RPC session captured by the `triggerUpdate` closure that issued
it. -/
structure InfoRequest (Pos Sess : Type) where
  id : Nat
  pos : Pos
  sess : Sess
  deriving DecidableEq

/-- The committed display snapshot: the single piece of state `displayProps`
that `InfoAux` hands to `InfoDisplay` (built by `mkDisplayProps`), minus the
UI-only props.  `status` is not part of it: `InfoAux` passes `status`
separately and live. -/
structure DisplayProps (Pos Goals TermGoal Widgets Sess : Type) where
  pos : Pos
  goals : Option Goals
  termGoal : Option TermGoal
  error : Option String
  rpcSess : Sess
  userWidgets : Option Widgets
  deriving DecidableEq

/-- The state of one `InfoAux` component: the current target position and its
RPC session (`useRpcSessionAtPos`), the `useState` hooks (`status`, `goals`,
`termGoal`, `userWidgets`, `error`, `rpcSess`), the committed `displayProps`,
the scheduler's `waiting` flag, and the in-flight requests (each bound to the
position/session captured when it was issued). -/
structure InfoState (Pos Goals TermGoal Widgets Sess : Type) where
  pos : Pos
  rpcSess0 : Sess
  status : InfoStatus
  goals : Option Goals
  termGoal : Option TermGoal
  userWidgets : Option Widgets
  error : Option String
  rpcSess : Sess
  displayProps : DisplayProps Pos Goals TermGoal Widgets Sess
  waiting : Bool
  nextReqId : Nat
  inflight : List (InfoRequest Pos Sess)
  deriving DecidableEq

/-- `mkDisplayProps` from `InfoAux`: the display snapshot is rebuilt from the
render-time current values of `pos`, `goals`, `termGoal`, `error`, `rpcSess`
and `userWidgets`. -/
def mkDisplayProps {Pos Goals TermGoal Widgets Sess : Type}
    (s : InfoState Pos Goals TermGoal Widgets Sess) :
    DisplayProps Pos Goals TermGoal Widgets Sess :=
  { pos := s.pos, goals := s.goals, termGoal := s.termGoal, error := s.error,
    rpcSess := s.rpcSess, userWidgets := s.userWidgets }

/-- `setShouldUpdateDisplay(true)` followed by the re-render that rebuilds
`displayProps` from the then-current state. -/
def commitDisplay {Pos Goals TermGoal Widgets Sess : Type}
    (s : InfoState Pos Goals TermGoal Widgets Sess) :
    InfoState Pos Goals TermGoal Widgets Sess :=
  { s with displayProps := mkDisplayProps s }

/-- A call to the trigger returned by `useDelayedThrottled`: when no wait is
outstanding, start one; otherwise do nothing. -/
def triggerStep {Pos Goals TermGoal Widgets Sess : Type}
    (s : InfoState Pos Goals TermGoal Widgets Sess) :
    InfoState Pos Goals TermGoal Widgets Sess :=
  if s.waiting then s else { s with waiting := true }

/-- The scheduler's timeout firing: `waiting` is reset, then the latest
callback runs — it sets `status` to `updating` and issues the request batch,
bound to the current position and session. -/
def fireStep {Pos Goals TermGoal Widgets Sess : Type}
    (s : InfoState Pos Goals TermGoal Widgets Sess) :
    InfoState Pos Goals TermGoal Widgets Sess :=
  if s.waiting then
    { s with waiting := false, status := .updating,
             inflight := s.inflight ++ [⟨s.nextReqId, s.pos, s.rpcSess0⟩],
             nextReqId := s.nextReqId + 1 }
  else s

/-- The success continuation of `triggerUpdate`: store the three results, bind
`rpcSess` to the session the request was issued with, set `status` to `ready`,
and commit a new display snapshot (which reads the current position, with no
check against the position the request was issued for). -/
def resolveOkStep {Pos Goals TermGoal Widgets Sess : Type}
    (s : InfoState Pos Goals TermGoal Widgets Sess) (rid : Nat)
    (g : Option Goals) (t : Option TermGoal) (w : Option Widgets) :
    InfoState Pos Goals TermGoal Widgets Sess :=
  match s.inflight.find? (fun r => r.id = rid) with
  | none => s
  | some req =>
      commitDisplay
        { s with inflight := s.inflight.filter (fun r => r.id ≠ rid),
                 goals := g, termGoal := t, userWidgets := w,
                 rpcSess := req.sess, status := .ready }

/-- Sets the error message and the `error` status, then commits a display
snapshot. -/
def errorCommit {Pos Goals TermGoal Widgets Sess : Type}
    (s : InfoState Pos Goals TermGoal Widgets Sess) (msg : String) :
    InfoState Pos Goals TermGoal Widgets Sess :=
  commitDisplay
    { s with error := some ("Error fetching goals: " ++ msg), status := .error }

/-- The `catch` block of `triggerUpdate`, applied once the failed request is
identified: a `ContentModified` RPC error re-invokes the trigger and returns; a
string, any other RPC error, or an `Error` object commits an error snapshot; an
empty error clears `error` and returns (no status change, no commit); any other
value commits an unrecognised-error snapshot. -/
def resolveErrStep {Pos Goals TermGoal Widgets Sess : Type}
    (s : InfoState Pos Goals TermGoal Widgets Sess) (rid : Nat) (e : JsError) :
    InfoState Pos Goals TermGoal Widgets Sess :=
  match s.inflight.find? (fun r => r.id = rid) with
  | none => s
  | some _ =>
      let s1 := { s with inflight := s.inflight.filter (fun r => r.id ≠ rid) }
      match e with
      | .rpc code msg =>
          if code = contentModifiedCode then triggerStep s1 else errorCommit s1 msg
      | .str msg => errorCommit s1 msg
      | .jsErr msg => errorCommit s1 msg
      | .empty => { s1 with error := none }
      | .other json => errorCommit s1 ("Unrecognised error: " ++ json)

/-- Environment events driving one `InfoAux` component: a cursor move (which
also re-runs the `useEffect` that calls the trigger), an explicit trigger call,
the scheduler firing, and an in-flight request batch resolving with either the
three results or an exception. -/
inductive InfoEvent (Pos Goals TermGoal Widgets Sess : Type) where
  | changePos (p : Pos) (sess : Sess)
  | trigger
  | fire
  | resolveOk (rid : Nat) (g : Option Goals) (t : Option TermGoal) (w : Option Widgets)
  | resolveErr (rid : Nat) (e : JsError)

/-- One step of the `InfoAux` state machine. -/
def infoStep {Pos Goals TermGoal Widgets Sess : Type}
    (s : InfoState Pos Goals TermGoal Widgets Sess) :
    InfoEvent Pos Goals TermGoal Widgets Sess → InfoState Pos Goals TermGoal Widgets Sess
  | .changePos p sess => triggerStep { s with pos := p, rpcSess0 := sess }
  | .trigger => triggerStep s
  | .fire => fireStep s
  | .resolveOk rid g t w => resolveOkStep s rid g t w
  | .resolveErr rid e => resolveErrStep s rid e

/-- Runs the `InfoAux` state machine over a list of events. -/
def infoRun {Pos Goals TermGoal Widgets Sess : Type}
    (s : InfoState Pos Goals TermGoal Widgets Sess)
    (es : List (InfoEvent Pos Goals TermGoal Widgets Sess)) :
    InfoState Pos Goals TermGoal Widgets Sess :=
  es.foldl infoStep s

/-- The sequence of states traversed while running the events, the initial
state included. -/
def infoTrace {Pos Goals TermGoal Widgets Sess : Type}
    (s : InfoState Pos Goals TermGoal Widgets Sess)
    (es : List (InfoEvent Pos Goals TermGoal Widgets Sess)) :
    List (InfoState Pos Goals TermGoal Widgets Sess) :=
  es.scanl infoStep s

/-- The initial state of an `InfoAux` component mounted at position `p` with
session `sess`: status `loading`, no data, no error, and a display snapshot
built from those initial values. -/
def initInfoState {Pos Goals TermGoal Widgets Sess : Type} (p : Pos) (sess : Sess) :
    InfoState Pos Goals TermGoal Widgets Sess :=
  { pos := p, rpcSess0 := sess, status := .loading, goals := none, termGoal := none,
    userWidgets := none, error := none, rpcSess := sess,
    displayProps := { pos := p, goals := none, termGoal := none, error := none,
                      rpcSess := sess, userWidgets := none },
    waiting := false, nextReqId := 0, inflight := [] }

/-- C6: the tagged-text evaluator emits the string of a `text` node (whatever
the other fields hold, since `text` is tested first), delegates `tagged` nodes
to the handler with the tag and subtree, renders `append` children left to
right — so `Append [Text "a", Tagged t (Text "b")]` yields `"a"` followed by the
handler's rendering of `"b"` for any handler — and raises a fatal error on a
node with none of the three shapes. -/
theorem C6_interactiveTaggedText_contract :
    (∀ (Tag : Type) (h : Tag → JsTaggedText Tag → Except String String) (s : String)
        (ap : Option (List (JsTaggedText Tag))) (tg : Option (Tag × JsTaggedText Tag)),
      interactiveTaggedText h (.mk (some s) ap tg) = .ok s) ∧
    (∀ (Tag : Type) (h : Tag → JsTaggedText Tag → Except String String)
        (t : Tag) (sub : JsTaggedText Tag),
      interactiveTaggedText h (.tagged t sub) = h t sub) ∧
    (∀ (Tag : Type) (h : Tag → JsTaggedText Tag → Except String String) (t : Tag)
        (hb : String), h t (.text "b") = .ok hb →
      interactiveTaggedText h (.append [.text "a", .tagged t (.text "b")]) =
        .ok ("a" ++ hb)) ∧
    (∀ (Tag : Type) (h : Tag → JsTaggedText Tag → Except String String),
      interactiveTaggedText h (.mk none none none) = .error "malformed TaggedText") := by
  refine ⟨fun Tag h s ap tg => rfl, fun Tag h t sub => rfl, ?_, fun Tag h => rfl⟩
  intro Tag h t hb hh
  simp only [JsTaggedText.text] at hh
  simp [JsTaggedText.append, JsTaggedText.tagged, JsTaggedText.text,
    interactiveTaggedText, interactiveTaggedTextList, hh, String.append_empty]
  rfl

/-- C6 witness: the append ordering at a concrete handler. -/
theorem C6_interactiveTaggedText_contract_witness :
    interactiveTaggedText (fun (_ : Unit) (_ : JsTaggedText Unit) => Except.ok "B")
      (.append [.text "a", .tagged () (.text "b")]) = .ok ("a" ++ "B") :=
  C6_interactiveTaggedText_contract.2.2.1 Unit
    (fun _ _ => Except.ok "B") () "B" rfl

/-- C7: when the raw diagnostics list is non-empty and the interactive upgrade
fetch returns an empty list or fails, the exposed diagnostics are the raw list
converted to the interactive shape, not the empty interactive result. -/
theorem C7_raw_diags_fallback (raw : List LspDiagnostic)
    (fetched : Except Int (List InteractiveDiagModel))
    (hraw : raw ≠ [])
    (hf : fetched = .ok [] ∨ ∃ c, fetched = .error c) :
    updateDiags true raw fetched = raw.map diagToInteractive := by
  rcases hf with h | ⟨c, h⟩ <;> subst h <;> simp [updateDiags]

/-- C7 witness: a singleton raw list with an empty interactive result. -/
theorem C7_raw_diags_fallback_witness :
    updateDiags true [⟨((0, 0), (0, 1)), some 1, "boom"⟩] (.ok []) =
      [diagToInteractive ⟨((0, 0), (0, 1)), some 1, "boom"⟩] :=
  C7_raw_diags_fallback _ _ (by simp) (Or.inl rfl)

/-- C8: a `publishDiagnostics` event replaces the entry for its URI wholesale
with the published list, and leaves the entry of every other URI unchanged. -/
theorem C8_publishDiagnostics_replaces (m : DiagnosticsMap) (uri : String)
    (ds : List LspDiagnostic) :
    publishDiagnostics m uri ds uri = some ds ∧
    ∀ u : String, u ≠ uri → publishDiagnostics m uri ds u = m u := by
  refine ⟨by simp [publishDiagnostics], fun u hu => ?_⟩
  simp [publishDiagnostics, hu]

/-- C8 witness: replacement at one URI, frame at another. -/
theorem C8_publishDiagnostics_replaces_witness :
    publishDiagnostics (fun _ => none) "file-a" [] "file-a" = some [] ∧
    publishDiagnostics (fun _ => none) "file-a" [] "file-b" = none :=
  ⟨(C8_publishDiagnostics_replaces (fun _ => none) "file-a" []).1,
   (C8_publishDiagnostics_replaces (fun _ => none) "file-a" []).2 "file-b" (by decide)⟩

/-- Once the `lazy` closure's state holds a wrapper object, every further call
returns the cached value and never invokes the thunk again. -/
theorem lazyCalls_cached (f : Unit → JsVal) (t : JsVal) :
    ∀ n, lazyCalls f (some t) n = (List.replicate n t, 0, some t) := by
  intro n
  induction n with
  | zero => rfl
  | succ n ih => simp [lazyCalls, lazyStep, ih, List.replicate]

/-- C10: across any number of calls, the wrapper returned by `lazy(f)` invokes
`f` at most once (exactly once as soon as it is called at all), and every call
returns the value of that first invocation — also when that value is falsy,
since the guard tests the wrapper object, not the value. -/
theorem C10_lazy_memoizes (f : Unit → JsVal) (n : Nat) :
    (lazyCalls f none n).1 = List.replicate n (f ()) ∧
    (lazyCalls f none n).2.1 = min n 1 := by
  cases n with
  | zero => simp [lazyCalls]
  | succ n =>
      simp [lazyCalls, lazyStep, lazyCalls_cached, List.replicate, Nat.succ_min_succ]

/-- A later bound also bounds the newest invocation. -/
theorem HeadAtMost_mono {A : Type} {l : List (Nat × A)} {b c : Nat}
    (h : HeadAtMost l b) (hbc : b ≤ c) : HeadAtMost l c := by
  cases l with
  | nil => trivial
  | cons x xs => exact le_trans h hbc

/-- A fire scheduled `ms` after the bound is `ms`-separated from the newest
invocation. -/
theorem HeadSepFrom_of_HeadAtMost {A : Type} {l : List (Nat × A)} {ms t : Nat}
    (h : HeadAtMost l t) : HeadSepFrom ms l (t + ms) := by
  cases l with
  | nil => trivial
  | cons x xs => exact Nat.add_le_add_right h ms

/-- Prepending an invocation that is `ms`-separated from the newest one keeps
the log separated. -/
theorem FiresSep_cons {A : Type} {ms : Nat} {l : List (Nat × A)} {t : Nat} {a : A}
    (hsep : HeadSepFrom ms l t) (h : FiresSep ms l) : FiresSep ms ((t, a) :: l) := by
  cases l with
  | nil => trivial
  | cons x xs => exact ⟨hsep, h⟩

/-- The scheduler invariant is preserved by any well-formed schedule, so the
invocation log of any run stays `ms`-separated. -/
theorem throttleRun_sep {A : Type} (ms : Nat) (es : List (ThrottleEvent A)) :
    ∀ (b : Nat) (s : ThrottleState A), ThrottleInv ms b s → TimedFrom b es →
      FiresSep ms (throttleRun ms s es).fires := by
  induction es with
  | nil => exact fun b s hinv _ => hinv.2.2
  | cons e es ih =>
      intro b s hinv ht
      obtain ⟨h1, h2, h3⟩ := hinv
      cases e with
      | bind a =>
          simp only [TimedFrom, ThrottleEvent.time] at ht
          exact ih b (throttleStep ms s (.bind a)) ⟨h1, h2, h3⟩ ht
      | finish =>
          simp only [TimedFrom, ThrottleEvent.time] at ht
          exact ih b (throttleStep ms s .finish) ⟨h1, h2, h3⟩ ht
      | call t =>
          simp only [TimedFrom, ThrottleEvent.time] at ht
          obtain ⟨hbt, ht'⟩ := ht
          cases hp : s.pendingFireAt with
          | some p =>
              simpa [throttleRun, throttleStep, hp] using
                ih t s ⟨HeadAtMost_mono h1 hbt, h2, h3⟩ ht'
          | none =>
              refine ?_
              have hinv' : ThrottleInv ms t { s with pendingFireAt := some (t + ms) } := by
                refine ⟨HeadAtMost_mono h1 hbt, ?_, h3⟩
                intro p hpp
                have hpe : p = t + ms := by
                  simpa using hpp.symm
                subst hpe
                exact HeadSepFrom_of_HeadAtMost (HeadAtMost_mono h1 hbt)
              simpa [throttleRun, throttleStep, hp] using ih t _ hinv' ht'
      | fire t =>
          simp only [TimedFrom, ThrottleEvent.time] at ht
          obtain ⟨hbt, ht'⟩ := ht
          by_cases hp : s.pendingFireAt = some t
          · have hinv' : ThrottleInv ms t
                { s with pendingFireAt := none, fires := (t, s.current) :: s.fires,
                         running := s.running + 1 } := by
              refine ⟨Nat.le_refl t, fun p hpp => by simp at hpp, ?_⟩
              exact FiresSep_cons (h2 t hp) h3
            simpa [throttleRun, throttleStep, hp] using ih t _ hinv' ht'
          · simpa [throttleRun, throttleStep, hp] using
              ih t s ⟨HeadAtMost_mono h1 hbt, h2, h3⟩ ht'

/-- The idle scheduler state used for the C4 runs. -/
def C4_init : ThrottleState Nat :=
  { pendingFireAt := none, current := 0, fires := [], running := 0 }

/-- C4: counterexample.  With interval 100, a call at time 0 fires at time 100;
because `waiting` is reset before the action is invoked, the call at time 100 —
made while that first action is still outstanding (`running = 1`, no `finish`
event) — schedules an additional invocation (`pendingFireAt = some 200`), which
then fires while the first action is still running, leaving two actions running
concurrently.  So a call arriving while an action is outstanding does queue an
additional invocation, contrary to the claim. -/
theorem C4_counterexample :
    (throttleRun 100 C4_init [.call 0, .fire 100, .call 100]).running = 1 ∧
    (throttleRun 100 C4_init [.call 0, .fire 100, .call 100]).pendingFireAt = some 200 ∧
    (throttleRun 100 C4_init [.call 0, .fire 100, .call 100, .fire 200]).fires =
      [(200, 0), (100, 0)] ∧
    (throttleRun 100 C4_init [.call 0, .fire 100, .call 100, .fire 200]).running = 2 :=
  ⟨rfl, rfl, rfl, rfl⟩

/-- C4 (amended): the first call in an idle period runs the action exactly once,
`ms` after the call; a call arriving while a wait is pending is coalesced (it
changes nothing, so at most one wait is pending at a time); and in every
well-formed schedule consecutive action invocations start at least `ms` apart.
However, a call arriving after the wait has elapsed — even while the invoked
action is still running — starts a new wait, so a second invocation can begin
while the previous action is outstanding. -/
theorem C4_throttle_amended {A : Type} (ms : Nat) :
    (∀ (s : ThrottleState A) (t : Nat), s.pendingFireAt = none →
      (throttleRun ms s [.call t, .fire (t + ms)]).fires = (t + ms, s.current) :: s.fires) ∧
    (∀ (s : ThrottleState A) (t : Nat) (p : Nat), s.pendingFireAt = some p →
      throttleStep ms s (.call t) = s) ∧
    (∀ (b : Nat) (s : ThrottleState A) (es : List (ThrottleEvent A)),
      ThrottleInv ms b s → TimedFrom b es → FiresSep ms (throttleRun ms s es).fires) := by
  refine ⟨fun s t hp => ?_, fun s t p hp => ?_, fun b s es hinv ht => throttleRun_sep ms es b s hinv ht⟩
  · simp [throttleRun, throttleStep, hp]
  · simp [throttleStep, hp]

/-- C4 witness: the three amended guarantees at concrete inputs. -/
theorem C4_throttle_amended_witness :
    (throttleRun 100 ({ pendingFireAt := none, current := 5, fires := [], running := 0 } :
        ThrottleState Nat) [.call 0, .fire 100]).fires = [(100, 5)] ∧
    throttleStep 100 ({ pendingFireAt := some 7, current := 5, fires := [], running := 0 } :
        ThrottleState Nat) (.call 3) =
      { pendingFireAt := some 7, current := 5, fires := [], running := 0 } ∧
    FiresSep 100 (throttleRun 100 C4_init [.call 0, .fire 100, .call 100, .fire 200]).fires := by
  refine ⟨(C4_throttle_amended 100).1 _ 0 rfl, (C4_throttle_amended 100).2.1 _ 3 7 rfl, ?_⟩
  refine (C4_throttle_amended 100).2.2 0 C4_init _ ⟨trivial, ?_, trivial⟩ ?_
  · intro p hp
    simp [C4_init] at hp
  · refine ⟨Nat.le_refl 0, Nat.zero_le 100, Nat.le_refl 100, Nat.le_of_lt (by decide), trivial⟩

/-- C9: the action invoked when a pending wait fires is the latest action bound
before the fire, not the action current when the wait started: binding `a1`,
calling at `t`, rebinding `a2` and firing at `t + ms` logs an invocation of
`a2`. -/
theorem C9_latest_action_on_fire {A : Type} (ms t : Nat) (s : ThrottleState A)
    (a1 a2 : A) (hp : s.pendingFireAt = none) :
    (throttleRun ms s [.bind a1, .call t, .bind a2, .fire (t + ms)]).fires.head? =
      some (t + ms, a2) := by
  simp [throttleRun, throttleStep, hp]

/-- C9 witness: rebinding between call and fire at concrete inputs. -/
theorem C9_latest_action_on_fire_witness :
    (throttleRun 100 ({ pendingFireAt := none, current := 0, fires := [], running := 0 } :
        ThrottleState Nat) [.bind 1, .call 0, .bind 2, .fire 100]).fires.head? =
      some (100, 2) :=
  C9_latest_action_on_fire 100 0 _ 1 2 rfl

/-- The overtaking run for C1: request 0 is issued at position 1 with session 5;
the position then changes to 2 (session 7) while request 0 is in flight;
request 1 is issued at position 2; request 1 resolves first, then the stale
request 0 resolves. -/
def C1_events : List (InfoEvent Nat Nat Nat Nat Nat) :=
  [.trigger, .fire, .changePos 2 7, .fire,
   .resolveOk 1 (some 22) (some 22) (some 22),
   .resolveOk 0 (some 11) (some 11) (some 11)]

/-- The same run stopped just after the position-2 request committed. -/
def C1_early : List (InfoEvent Nat Nat Nat Nat Nat) :=
  [.trigger, .fire, .changePos 2 7, .fire, .resolveOk 1 (some 22) (some 22) (some 22)]

/-- C1: counterexample.  After position 2's request resolves and commits a
`ready` snapshot with its goals (22), the late response of the request issued
for the overtaken position 1 is not discarded: it is committed, overwriting the
snapshot with position 1's goals (11) and session (5) while the most recently
requested position is 2.  `triggerUpdate` commits responses with no binding
check against the current target. -/
theorem C1_counterexample :
    (infoRun (initInfoState 1 5) C1_early).status = .ready ∧
    (infoRun (initInfoState 1 5) C1_early).displayProps.goals = some 22 ∧
    (infoRun (initInfoState 1 5) C1_events).pos = 2 ∧
    (infoRun (initInfoState 1 5) C1_events).displayProps.goals = some 11 ∧
    (infoRun (initInfoState 1 5) C1_events).displayProps.rpcSess = 5 :=
  ⟨rfl, rfl, rfl, rfl, rfl⟩

/-- C1 (amended): staleness protection holds only up to the moment the
scheduler fires: a position change while the wait is pending is honoured,
because the fired callback reads the latest position and session, so the
request is issued for the new position.  Once a request is in flight, however,
its response is committed without any binding check and can overwrite a newer
commit. -/
theorem C1_latest_position_at_fire {Pos Goals TermGoal Widgets Sess : Type}
    (s : InfoState Pos Goals TermGoal Widgets Sess) (p : Pos) (sess : Sess)
    (hw : s.waiting = true) :
    (infoRun s [.changePos p sess, .fire]).inflight =
      s.inflight ++ [⟨s.nextReqId, p, sess⟩] ∧
    (infoRun s [.changePos p sess, .fire]).status = .updating := by
  simp [infoRun, infoStep, triggerStep, fireStep, hw]

/-- C1 witness: the fired request is bound to the new position 2 and session 7,
not to the position the wait started at. -/
theorem C1_latest_position_at_fire_witness :
    (infoRun { (initInfoState 1 5 : InfoState Nat Nat Nat Nat Nat) with waiting := true }
        [.changePos 2 7, .fire]).inflight = [⟨0, 2, 7⟩] ∧
    (infoRun { (initInfoState 1 5 : InfoState Nat Nat Nat Nat Nat) with waiting := true }
        [.changePos 2 7, .fire]).status = .updating :=
  C1_latest_position_at_fire _ 2 7 rfl

/-- The failing run for C2: a first cycle succeeds (status `ready`), then a
second cycle fails with an error whose serialized form is empty. -/
def C2_events : List (InfoEvent Nat Nat Nat Nat Nat) :=
  [.trigger, .fire, .resolveOk 0 (some 1) none none, .trigger, .fire, .resolveErr 1 .empty]

/-- The same run stopped before the failing cycle. -/
def C2_early : List (InfoEvent Nat Nat Nat Nat Nat) :=
  [.trigger, .fire, .resolveOk 0 (some 1) none none]

/-- C2: counterexample.  Before the failing cycle the status is `ready`; the
cycle sets it to `updating` when it starts, and the empty-error branch returns
without restoring it, so after the failure the status is `updating`, not the
status from before the failing request — the status did change, though not to
`error`; the error is cleared. -/
theorem C2_counterexample :
    (infoRun (initInfoState 1 5) C2_early).status = .ready ∧
    (infoRun (initInfoState 1 5) C2_events).status = .updating ∧
    (infoRun (initInfoState 1 5) C2_events).status ≠
      (infoRun (initInfoState 1 5) C2_early).status ∧
    (infoRun (initInfoState 1 5) C2_events).error = none :=
  ⟨rfl, rfl, by decide, rfl⟩

/-- C2 (amended): on an update cycle failing with an empty error, the
controller clears the error state and suppresses the error display; the status
never transitions to `error` — it keeps the `updating` value set at the start
of the failing cycle — and the committed display snapshot is left exactly as it
was before the cycle. -/
theorem C2_empty_error_suppressed {Pos Goals TermGoal Widgets Sess : Type}
    (s : InfoState Pos Goals TermGoal Widgets Sess)
    (hw : s.waiting = true) (hq : s.inflight = []) :
    (infoRun s [.fire, .resolveErr s.nextReqId .empty]).status = .updating ∧
    (infoRun s [.fire, .resolveErr s.nextReqId .empty]).error = none ∧
    (infoRun s [.fire, .resolveErr s.nextReqId .empty]).displayProps = s.displayProps := by
  simp [infoRun, infoStep, fireStep, resolveErrStep, hw, hq, List.find?]

/-- C2 witness: the amended guarantees at a concrete ready-state. -/
theorem C2_empty_error_suppressed_witness :
    (infoRun { (initInfoState 1 5 : InfoState Nat Nat Nat Nat Nat) with
        status := .ready, waiting := true }
        [.fire, .resolveErr 0 .empty]).status = .updating ∧
    (infoRun { (initInfoState 1 5 : InfoState Nat Nat Nat Nat Nat) with
        status := .ready, waiting := true }
        [.fire, .resolveErr 0 .empty]).error = none ∧
    (infoRun { (initInfoState 1 5 : InfoState Nat Nat Nat Nat Nat) with
        status := .ready, waiting := true }
        [.fire, .resolveErr 0 .empty]).displayProps =
      { pos := 1, goals := none, termGoal := none, error := none, rpcSess := 5,
        userWidgets := none } :=
  C2_empty_error_suppressed _ rfl rfl

/-- The state just after C3's ContentModified failure: the failed request is
removed and a retry wait is scheduled; nothing else changes. -/
def C3_s1 {Pos Goals TermGoal Widgets Sess : Type}
    (s : InfoState Pos Goals TermGoal Widgets Sess) :
    InfoState Pos Goals TermGoal Widgets Sess :=
  { s with inflight := [], waiting := true }

/-- The state after C3's retry fires: one new request at the same position. -/
def C3_s2 {Pos Goals TermGoal Widgets Sess : Type}
    (s : InfoState Pos Goals TermGoal Widgets Sess) :
    InfoState Pos Goals TermGoal Widgets Sess :=
  { s with
      inflight := [⟨s.nextReqId, s.pos, s.rpcSess0⟩]
      waiting := false
      status := .updating
      nextReqId := s.nextReqId + 1 }

/-- The state after C3's retry succeeds: a ready commit. -/
def C3_s3 {Pos Goals TermGoal Widgets Sess : Type}
    (s : InfoState Pos Goals TermGoal Widgets Sess)
    (g : Option Goals) (t : Option TermGoal) (w : Option Widgets) :
    InfoState Pos Goals TermGoal Widgets Sess :=
  commitDisplay
    { s with
        inflight := []
        waiting := false
        status := .ready
        goals := g
        termGoal := t
        userWidgets := w
        rpcSess := s.rpcSess0
        nextReqId := s.nextReqId + 1 }

/-- C3: when the in-flight request of an update cycle fails with the
well-known ContentModified code, the whole update is retried unconditionally in
the very same step (the catch block re-invokes the trigger and returns, with no
backoff state and no error commit): the retry leaves the status `updating` and
the committed snapshot untouched, the subsequent fire issues exactly one
additional request bound to the same position, and when that retry succeeds the
status becomes `ready`, with `error` never observably committed anywhere along
the run. -/
theorem C3_contentModified_retry {Pos Goals TermGoal Widgets Sess : Type}
    (s : InfoState Pos Goals TermGoal Widgets Sess) (rid : Nat) (sess : Sess)
    (msg : String) (g : Option Goals) (t : Option TermGoal) (w : Option Widgets)
    (hs : s.status = .updating) (hw : s.waiting = false)
    (hq : s.inflight = [⟨rid, s.pos, sess⟩]) :
    (infoStep s (.resolveErr rid (.rpc contentModifiedCode msg))).waiting = true ∧
    (infoStep s (.resolveErr rid (.rpc contentModifiedCode msg))).status = .updating ∧
    (infoStep s (.resolveErr rid (.rpc contentModifiedCode msg))).displayProps =
      s.displayProps ∧
    (infoRun s [.resolveErr rid (.rpc contentModifiedCode msg), .fire]).inflight =
      [⟨s.nextReqId, s.pos, s.rpcSess0⟩] ∧
    (infoRun s [.resolveErr rid (.rpc contentModifiedCode msg), .fire]).nextReqId =
      s.nextReqId + 1 ∧
    (∀ st ∈ infoTrace s [.resolveErr rid (.rpc contentModifiedCode msg), .fire,
        .resolveOk s.nextReqId g t w], st.status ≠ .error) ∧
    (infoRun s [.resolveErr rid (.rpc contentModifiedCode msg), .fire,
        .resolveOk s.nextReqId g t w]).status = .ready := by
  have e1 : infoStep s (.resolveErr rid (.rpc contentModifiedCode msg)) = C3_s1 s := by
    simp [infoStep, resolveErrStep, hq, hw, triggerStep, C3_s1, List.find?, List.filter]
  have e2 : infoStep (C3_s1 s) .fire = C3_s2 s := by
    simp [infoStep, fireStep, C3_s1, C3_s2]
  have e3 : infoStep (C3_s2 s) (.resolveOk s.nextReqId g t w) = C3_s3 s g t w := by
    simp [infoStep, resolveOkStep, C3_s2, C3_s3, List.find?, List.filter]
  have hrun2 : infoRun s [.resolveErr rid (.rpc contentModifiedCode msg), .fire] =
      C3_s2 s := by
    simp [infoRun, e1, e2]
  have hrun3 : infoRun s [.resolveErr rid (.rpc contentModifiedCode msg), .fire,
      .resolveOk s.nextReqId g t w] = C3_s3 s g t w := by
    simp [infoRun, e1, e2, e3]
  refine ⟨by rw [e1]; rfl, by rw [e1]; exact hs, by rw [e1]; rfl,
    by rw [hrun2]; rfl, by rw [hrun2]; rfl, ?_, by rw [hrun3]; rfl⟩
  intro st hst
  have htr : infoTrace s [.resolveErr rid (.rpc contentModifiedCode msg), .fire,
      .resolveOk s.nextReqId g t w] = [s, C3_s1 s, C3_s2 s, C3_s3 s g t w] := by
    simp [infoTrace, List.scanl, e1, e2, e3]
  rw [htr] at hst
  simp only [List.mem_cons, List.not_mem_nil, or_false] at hst
  rcases hst with h | h | h | h <;> subst h
  · simp [hs]
  · simp [C3_s1, hs]
  · simp [C3_s2]
  · simp [C3_s3, commitDisplay]

/-- C3 witness state: an update cycle at position 1 (session 5) is in flight as
request 0, the status is `updating` and no wait is pending. -/
def C3_state : InfoState Nat Nat Nat Nat Nat :=
  { initInfoState 1 5 with
      status := .updating
      inflight := [⟨0, 1, 5⟩]
      nextReqId := 1 }

/-- C3 witness: the retry scenario at concrete inputs. -/
theorem C3_contentModified_retry_witness :
    (infoStep C3_state (.resolveErr 0 (.rpc contentModifiedCode "m"))).waiting = true ∧
    (infoStep C3_state (.resolveErr 0 (.rpc contentModifiedCode "m"))).status = .updating ∧
    (infoStep C3_state (.resolveErr 0 (.rpc contentModifiedCode "m"))).displayProps =
      C3_state.displayProps ∧
    (infoRun C3_state [.resolveErr 0 (.rpc contentModifiedCode "m"), .fire]).inflight =
      [⟨1, 1, 5⟩] ∧
    (infoRun C3_state [.resolveErr 0 (.rpc contentModifiedCode "m"), .fire]).nextReqId = 2 ∧
    (∀ st ∈ infoTrace C3_state [.resolveErr 0 (.rpc contentModifiedCode "m"), .fire,
        .resolveOk 1 (some 9) none none], st.status ≠ .error) ∧
    (infoRun C3_state [.resolveErr 0 (.rpc contentModifiedCode "m"), .fire,
        .resolveOk 1 (some 9) none none]).status = .ready :=
  C3_contentModified_retry C3_state 0 5 "m" (some 9) none none rfl rfl rfl

/-- The run for C5: cycle 0 (request 0) fails with a string error and commits an
error snapshot; cycle 1 (request 1) succeeds and commits a ready snapshot. -/
def C5_events : List (InfoEvent Nat Nat Nat Nat Nat) :=
  [.trigger, .fire, .resolveErr 0 (.str "boom"), .trigger, .fire,
   .resolveOk 1 (some 42) (some 42) (some 42)]

/-- C5: counterexample.  The snapshot committed by the successful cycle mixes
fields from two different update cycles: its goals (42) come from the
successful cycle, but its `error` field still holds the previous failing
cycle's message, because the success path never clears the error state before
committing. -/
theorem C5_counterexample :
    (infoRun (initInfoState 1 5) C5_events).status = .ready ∧
    (infoRun (initInfoState 1 5) C5_events).displayProps.goals = some 42 ∧
    (infoRun (initInfoState 1 5) C5_events).displayProps.error =
      some "Error fetching goals: boom" :=
  ⟨rfl, rfl, rfl⟩

/-- An environment event whose successful resolution carries the three results
produced by one request cycle, all labelled with that cycle's request id. -/
def okLabelledEvent : InfoEvent Nat Nat Nat Nat Nat → Prop
  | .resolveOk rid g t w => g = some rid ∧ t = some rid ∧ w = some rid
  | _ => True

/-- The three request results agree — both in the live state and in the
committed snapshot each triple originates from a single resolution. -/
def Coherent (s : InfoState Nat Nat Nat Nat Nat) : Prop :=
  s.goals = s.termGoal ∧ s.termGoal = s.userWidgets ∧
  s.displayProps.goals = s.displayProps.termGoal ∧
  s.displayProps.termGoal = s.displayProps.userWidgets

/-- C5 (amended): the display snapshot is committed atomically as one value:
in every run whose successful resolutions are labelled by their cycle, the
committed snapshot's goals, term goal and widgets always stem from one single
cycle (they carry the same label) — no interleaving of the three results of
different cycles is ever observable.  However, the committed `error` field is
not cleared by a successful cycle and the committed position is read at commit
time, so those two fields can be older respectively newer than the cycle's
results. -/
theorem C5_snapshot_coherent (s : InfoState Nat Nat Nat Nat Nat)
    (es : List (InfoEvent Nat Nat Nat Nat Nat))
    (hs : Coherent s) (hes : ∀ e ∈ es, okLabelledEvent e) :
    Coherent (infoRun s es) := by
  induction es generalizing s with
  | nil => exact hs
  | cons e es ih =>
      have hes' : ∀ x ∈ es, okLabelledEvent x := fun x hx => hes x (List.mem_cons_of_mem e hx)
      have hstep : Coherent (infoStep s e) := by
        cases e with
        | changePos p sess =>
            simp only [infoStep, triggerStep]
            split <;> exact hs
        | trigger =>
            simp only [infoStep, triggerStep]
            split <;> exact hs
        | fire =>
            simp only [infoStep, fireStep]
            split <;> exact hs
        | resolveOk rid g t w =>
            have he := hes _ (List.mem_cons_self _ es)
            obtain ⟨hg, ht, hw⟩ := he
            subst hg; subst ht; subst hw
            simp only [infoStep, resolveOkStep]
            cases hfind : s.inflight.find? (fun r => r.id = rid) with
            | none => exact hs
            | some req =>
                exact ⟨rfl, rfl, rfl, rfl⟩
        | resolveErr rid e =>
            simp only [infoStep, resolveErrStep]
            cases hfind : s.inflight.find? (fun r => r.id = rid) with
            | none => exact hs
            | some req =>
                cases e with
                | rpc code msg =>
                    by_cases hc : code = contentModifiedCode
                    · simp [hc, triggerStep]
                      split <;> exact hs
                    · simp [hc]
                      exact ⟨hs.1, hs.2.1, hs.1, hs.2.1⟩
                | str msg =>
                    simp only [errorCommit, commitDisplay, mkDisplayProps]
                    exact ⟨hs.1, hs.2.1, hs.1, hs.2.1⟩
                | jsErr msg =>
                    simp only [errorCommit, commitDisplay, mkDisplayProps]
                    exact ⟨hs.1, hs.2.1, hs.1, hs.2.1⟩
                | empty => exact hs
                | other json =>
                    simp only [errorCommit, commitDisplay, mkDisplayProps]
                    exact ⟨hs.1, hs.2.1, hs.1, hs.2.1⟩
      exact ih (infoStep s e) hstep hes'

/-- C5 witness: coherence of a concrete labelled run with one successful
cycle. -/
theorem C5_snapshot_coherent_witness :
    Coherent (infoRun (initInfoState 1 5)
      [.trigger, .fire, .resolveOk 0 (some 0) (some 0) (some 0)]) :=
  C5_snapshot_coherent _ _ ⟨rfl, rfl, rfl, rfl⟩ (by
    intro e he
    simp only [List.mem_cons, List.not_mem_nil, or_false] at he
    rcases he with h | h | h <;> subst h <;> simp [okLabelledEvent])
